import Mathlib

/-!
Shallow embedding of the blog Content Store (src/js/blog-storage.js) and the
Credential Gate (src/js/blog-auth.js) of the portfolio-website repository.

Conventions of the embedding:
* the browser key-value stores are modelled by explicit state values: the post
  collection is a `List Post`, the auth storage is an `AuthState` record;
* `Date.now()` is an explicit `Nat` argument (milliseconds since the epoch);
* JavaScript strings are modelled by Lean `String` over their characters; the
  string methods used by the source (`toLowerCase`, `trim`, the `\w`, `\s`
  character classes) are modelled on the code-point level, which agrees with
  JavaScript on the ASCII range the slug machinery is designed for;
* fallible paths (a thrown and re-thrown exception, a JavaScript crash on a
  missing field) are modelled by `Option`.
-/

/-! ### Character-level string primitives used by blog-storage.js -/

/-- Model of the JavaScript character class `\w` (ASCII letters, digits and
underscore), as used by the regex `[^\w\s-]` in `generateSlug`. -/
def wordChar (c : Char) : Bool := c.isAlphanum || c == '_'

/-- Whitespace test used for the `\s` character class. -/
def isWs (c : Char) : Bool := c.isWhitespace

/-- Hyphen test used for the `-` in the slug regexes. -/
def isHyph (c : Char) : Bool := c == '-'

/-- Characters kept by the first replacement `replace(/[^\w\s-]/g, '')` of
`generateSlug`: word characters, whitespace and hyphens survive. -/
def slugKeep (c : Char) : Bool := wordChar c || c.isWhitespace || c == '-'

/-- Model of a global regex replacement of maximal nonempty runs of
characters satisfying `p` by the single character `r` (as in the source's
replacement of the patterns `\s+` and `-+` by a single hyphen).  The flag
records whether the scanner is currently inside a run. -/
def collapseRuns (p : Char → Bool) (r : Char) : Bool → List Char → List Char
  | _, [] => []
  | inRun, c :: cs =>
    if p c then
      if inRun then collapseRuns p r true cs
      else r :: collapseRuns p r true cs
    else c :: collapseRuns p r false cs

/-- Model of `String.prototype.trim`: drop whitespace from both ends. -/
def trimChars (l : List Char) : List Char :=
  ((l.dropWhile Char.isWhitespace).reverse.dropWhile Char.isWhitespace).reverse

/-- String-level wrapper for `trim()`. -/
def jsTrim (s : String) : String := String.mk (trimChars s.data)

/-- Character pipeline of `generateSlug`: lowercase, trim, strip characters
outside `[\w\s-]`, collapse whitespace runs to single hyphens, collapse
hyphen runs, truncate to 60 characters — in exactly the order of the source. -/
def slugChars (l : List Char) : List Char :=
  (collapseRuns isHyph '-' false
    (collapseRuns isWs '-' false
      ((trimChars (l.map Char.toLower)).filter slugKeep))).take 60

/-- Model of `BlogStorage.generateSlug` (blog-storage.js lines 182-190). -/
def generateSlug (title : String) : String := String.mk (slugChars title.data)

/-- State machine modelling the global replacement `replace(/<[^>]*>/g, '')`
that strips markup tags: on `<` start buffering; a subsequent `>` discards
the buffered span (a matched tag); if the input ends while buffering, the
regex never matched there, so the buffered characters are kept. -/
def stripAux : Bool → List Char → List Char → List Char
  | false, _, [] => []
  | false, _, c :: cs =>
    if c == '<' then stripAux true [] cs else c :: stripAux false [] cs
  | true, buf, [] => '<' :: buf.reverse
  | true, buf, c :: cs =>
    if c == '>' then stripAux false [] cs else stripAux true (c :: buf) cs

/-- Model of `content.replace(/<[^>]*>/g, '')` used by `calculateReadTime`
and `generateExcerpt`. -/
def stripTags (s : String) : String := String.mk (stripAux false [] s.data)

/-- Number of maximal runs of characters not satisfying `p`; the flag records
whether the scanner is inside such a run. -/
def countRuns (p : Char → Bool) : Bool → List Char → Nat
  | _, [] => 0
  | inRun, c :: cs =>
    if p c then countRuns p false cs
    else if inRun then countRuns p true cs
    else 1 + countRuns p true cs

/-- Model of `text.trim().split(/\s+/).length` for an already trimmed `text`:
JavaScript splitting the empty string yields the one-element array `[""]`,
otherwise the split of a trimmed string yields exactly its whitespace-free
words. -/
def jsSplitCount (t : String) : Nat :=
  if t.isEmpty then 1 else countRuns isWs false t.data

/-- Model of `BlogStorage.calculateReadTime` (blog-storage.js lines 197-202):
strip tags, count words at 200 words per minute, round up, floor at 1. -/
def calculateReadTime (content : String) : Nat :=
  let words := jsSplitCount (jsTrim (stripTags content))
  max 1 ((words + 199) / 200)

/-- Model of `BlogStorage.generateExcerpt` (blog-storage.js lines 209-213):
strip tags, trim, take the first 150 characters, append an ellipsis when the
text was truncated. -/
def generateExcerpt (content : String) : String :=
  let text := jsTrim (stripTags content)
  let excerpt := String.mk (text.data.take 150)
  if excerpt.length < text.length then excerpt ++ "..." else excerpt

/-! ### ISO date formatting used by generateId -/

/-- Two-digit zero padding for month and day fields. -/
def pad2 (n : Nat) : String := if n < 10 then "0" ++ toString n else toString n

/-- Model of `new Date(timestamp).toISOString().split('T')[0]` for
non-negative millisecond timestamps: the proleptic Gregorian date of
`timestamp / 86400000` days after 1970-01-01, rendered `YYYY-MM-DD`
(the standard civil-from-days computation). -/
def isoDate (timestamp : Nat) : String :=
  let days := timestamp / 86400000
  let z := days + 719468
  let era := z / 146097
  let doe := z % 146097
  let yoe := (doe - doe / 1460 + doe / 36524 - doe / 146096) / 365
  let y := yoe + era * 400
  let doy := doe - (365 * yoe + yoe / 4 - yoe / 100)
  let mp := (5 * doy + 2) / 153
  let d := doy - (153 * mp + 2) / 5 + 1
  let m := if mp < 10 then mp + 3 else mp - 9
  let y2 := if m ≤ 2 then y + 1 else y
  toString y2 ++ "-" ++ pad2 m ++ "-" ++ pad2 d

/-- Model of `BlogStorage.generateId` (blog-storage.js lines 171-175):
the slug of the title joined with the ISO date of the timestamp. -/
def generateId (title : String) (timestamp : Nat) : String :=
  generateSlug title ++ "-" ++ isoDate timestamp

/-! ### The Post data model and savePost -/

/-- A stored blog post.  Fields the source can leave absent on a freshly
created post (those only copied from the partial input) are `Option`-typed;
fields `savePost` always fills are plain. -/
structure Post where
  id : String
  slug : String
  title : String
  content : Option String
  excerpt : String
  category : Option String
  featuredImage : Option String
  published : Option Bool
  author : Option String
  readTime : Nat
  createdAt : Nat
  updatedAt : Nat
deriving DecidableEq

/-- A partial post record as passed to `savePost`; `none` models a field
absent from the JavaScript object. -/
structure PostData where
  id : Option String := none
  slug : Option String := none
  title : Option String := none
  content : Option String := none
  excerpt : Option String := none
  category : Option String := none
  featuredImage : Option String := none
  published : Option Bool := none
  author : Option String := none
  readTime : Option Nat := none
  createdAt : Option Nat := none
  updatedAt : Option Nat := none

/-- Spread-merge of an optional field: a field present in the partial record
overwrites the existing one. -/
def pick (a b : Option α) : Option α :=
  match a with
  | some x => some x
  | none => b

/-- Model of JavaScript `a || b` on an optional string: the empty string is
falsy, so it also falls through to the default. -/
def jsOr (a : Option String) (b : String) : String :=
  match a with
  | some s => if s.isEmpty then b else s
  | none => b

/-- Update branch of `savePost` (blog-storage.js lines 91-98): the object
spread `{...existing, ...postData, updatedAt: now}`. -/
def mergePost (existing : Post) (d : PostData) (now : Nat) : Post :=
  { id := d.id.getD existing.id
    slug := d.slug.getD existing.slug
    title := d.title.getD existing.title
    content := pick d.content existing.content
    excerpt := d.excerpt.getD existing.excerpt
    category := pick d.category existing.category
    featuredImage := pick d.featuredImage existing.featuredImage
    published := pick d.published existing.published
    author := pick d.author existing.author
    readTime := d.readTime.getD existing.readTime
    createdAt := d.createdAt.getD existing.createdAt
    updatedAt := now }

/-- Create branch of `savePost` (blog-storage.js lines 100-110), for a
partial record whose title is `t`. -/
def newPost (d : PostData) (t : String) (now : Nat) : Post :=
  { id := generateId t now
    slug := generateSlug t
    title := t
    content := d.content
    excerpt := jsOr d.excerpt (generateExcerpt (d.content.getD ""))
    category := d.category
    featuredImage := d.featuredImage
    published := d.published
    author := d.author
    readTime := calculateReadTime (d.content.getD "")
    createdAt := now
    updatedAt := now }

/-- Model of `findIndex(p => p.id === postData.id)` followed by the in-place
update `posts[existingIndex] = post`: replace the first post whose `id` the
partial record matches, returning the merged post and the new collection.
A partial record without an `id` matches nothing, as in JavaScript where
`p.id === undefined` is false for every stored string id. -/
def updateFirst (d : PostData) (now : Nat) : List Post → Option (Post × List Post)
  | [] => none
  | p :: ps =>
    if d.id == some p.id then
      some (mergePost p d now, mergePost p d now :: ps)
    else
      match updateFirst d now ps with
      | some (q, ps2) => some (q, p :: ps2)
      | none => none

/-- Model of `BlogStorage.savePost` (blog-storage.js lines 82-122) acting on
an explicit collection: upsert by `id`, returning the saved post and the
collection that `savePosts` persists.  The create branch reads
`postData.title` unconditionally (`generateId`, `generateSlug`), so a partial
record without a title makes the JavaScript crash there — modelled as `none`. -/
def savePost (d : PostData) (now : Nat) (posts : List Post) : Option (Post × List Post) :=
  match updateFirst d now posts with
  | some r => some r
  | none =>
    match d.title with
    | none => none
    | some t => some (newPost d t now, posts ++ [newPost d t now])

/-- The id-uniqueness invariant of the spec: all stored ids are distinct. -/
def idsNodup (posts : List Post) : Prop := (posts.map Post.id).Nodup

instance (posts : List Post) : Decidable (idsNodup posts) :=
  inferInstanceAs (Decidable (posts.map Post.id).Nodup)

/-! ### Credential Gate (src/js/blog-auth.js) -/

/-- A session record as persisted by `createSession`. -/
structure Session where
  authenticated : Bool
  timestamp : Nat
  expiresAt : Nat
deriving DecidableEq

/-- The browser storage visible to blog-auth.js: the credential digest in
durable storage, and the session record in the tab-scoped store
(sessionStorage) and in the durable store (localStorage). -/
structure AuthState where
  password : Option String
  tabSession : Option Session
  localSession : Option Session
deriving DecidableEq

/-- An entirely empty auth storage. -/
def authEmpty : AuthState := { password := none, tabSession := none, localSession := none }

/-- The 24-hour `SESSION_DURATION` constant (blog-auth.js line 7), in ms. -/
def SESSION_DURATION : Nat := 24 * 60 * 60 * 1000

/-- Model of `BlogAuth.isPasswordSet` (blog-auth.js lines 18-20). -/
def isPasswordSet (st : AuthState) : Bool := st.password.isSome

/-- Model of `BlogAuth.setPassword` (blog-auth.js lines 27-40), parametric in
the digest function `hash` standing for the SHA-256 hex digest: passwords
shorter than 6 characters make it throw internally, catch, and return false
without mutating anything; otherwise the digest is persisted. -/
def setPassword (hash : String → String) (pw : String) (st : AuthState) : Bool × AuthState :=
  if pw.length < 6 then (false, st)
  else (true, { st with password := some (hash pw) })

/-- Model of `BlogAuth.verifyPassword` (blog-auth.js lines 47-58): false when
no digest is stored, otherwise string equality of digests. -/
def verifyPassword (hash : String → String) (pw : String) (st : AuthState) : Bool :=
  match st.password with
  | none => false
  | some stored => hash pw == stored

/-- Model of `BlogAuth.createSession` (blog-auth.js lines 114-127): build a
session expiring 30 days ahead for remember-me, 24 hours otherwise, and
store it in the durable scope for remember-me, the tab scope otherwise. -/
def createSession (rememberMe : Bool) (now : Nat) (st : AuthState) : AuthState :=
  let s : Session :=
    { authenticated := true
      timestamp := now
      expiresAt := now + (if rememberMe then 30 * 24 * 60 * 60 * 1000 else SESSION_DURATION) }
  if rememberMe then { st with localSession := some s }
  else { st with tabSession := some s }

/-- Session lookup order shared by `isAuthenticated`, `getSession` and
`extendSession`: the tab-scoped record first, the durable one second. -/
def getSessionOpt (st : AuthState) : Option Session :=
  match st.tabSession with
  | some s => some s
  | none => st.localSession

/-- Model of `BlogAuth.logout` (blog-auth.js lines 181-184): remove the
session record from both scopes unconditionally. -/
def logout (st : AuthState) : AuthState :=
  { st with tabSession := none, localSession := none }

/-- Model of `BlogAuth.isAuthenticated` (blog-auth.js lines 133-157): look
the session up (tab scope first); with no record, report false; past the
expiry (`Date.now() > expiresAt`), call `logout` and report false; otherwise
report the session's `authenticated` flag.  Returns the possibly-cleared
storage alongside the answer. -/
def isAuthenticated (now : Nat) (st : AuthState) : Bool × AuthState :=
  match getSessionOpt st with
  | none => (false, st)
  | some s =>
    if s.expiresAt < now then (false, logout st)
    else (s.authenticated, st)

/-- Model of `BlogAuth.extendSession` (blog-auth.js lines 189-201): when a
session exists, reset its `expiresAt` to `now + SESSION_DURATION` and write
it back into the tab scope when that scope currently holds a record,
into the durable scope otherwise. -/
def extendSession (now : Nat) (st : AuthState) : AuthState :=
  match getSessionOpt st with
  | none => st
  | some s =>
    let s2 := { s with expiresAt := now + SESSION_DURATION }
    if st.tabSession.isSome then { st with tabSession := some s2 }
    else { st with localSession := some s2 }

/-- Result object of `login`; `firstTime` is absent (undefined) on the
failure paths. -/
structure LoginResult where
  success : Bool
  message : String
  firstTime : Option Bool
deriving DecidableEq

/-- Model of `BlogAuth.login` (blog-auth.js lines 213-255): with no stored
credential the call is first-time setup (set the password, create a session,
report firstTime true — unless the password is rejected as too short);
otherwise verify and create a session on success. -/
def login (hash : String → String) (pw : String) (rememberMe : Bool) (now : Nat)
    (st : AuthState) : LoginResult × AuthState :=
  if isPasswordSet st = false then
    match setPassword hash pw st with
    | (true, st2) =>
      ({ success := true
         message := "Password set successfully! Welcome to your blog admin."
         firstTime := some true }, createSession rememberMe now st2)
    | (false, st2) =>
      ({ success := false
         message := "Failed to set password. Please try again."
         firstTime := none }, st2)
  else if verifyPassword hash pw st then
    ({ success := true
       message := "Login successful!"
       firstTime := some false }, createSession rememberMe now st)
  else
    ({ success := false
       message := "Incorrect password. Please try again."
       firstTime := none }, st)

/-! ### JSON documents, export and import -/

/-- JSON values, modelling the documents `exportToJSON` produces and
`importFromJSON` parses.  `JSON.stringify` followed by `JSON.parse` is the
identity on the value shapes modelled here (finite objects of strings,
integers, booleans, arrays), so serialization is modelled at the document
level and numbers by `Nat` (the source only serializes string, boolean and
non-negative integer fields). -/
inductive JVal where
  | str : String → JVal
  | num : Nat → JVal
  | bool : Bool → JVal
  | null : JVal
  | arr : List JVal → JVal
  | obj : List (String × JVal) → JVal

/-- Property lookup `data.key` on a JavaScript object: the first binding of
the key, or undefined (`none`) when absent. -/
def getField (k : String) : List (String × JVal) → Option JVal
  | [] => none
  | (k2, v) :: fs => if k2 == k then some v else getField k fs

/-- JavaScript truthiness of a parsed JSON value (`null`, `false`, `0` and
the empty string are falsy; every object and array is truthy). -/
def jsTruthy : JVal → Bool
  | JVal.null => false
  | JVal.bool b => b
  | JVal.num n => n != 0
  | JVal.str s => !s.isEmpty
  | JVal.arr _ => true
  | JVal.obj _ => true

/-- The JavaScript `.length` property of a parsed JSON value: defined for
arrays and strings, undefined (`none`) otherwise. -/
def jsLength : JVal → Option Nat
  | JVal.arr xs => some xs.length
  | JVal.str s => some s.length
  | _ => none

/-- The JSON object `JSON.stringify` produces for one stored post: fields
holding JavaScript `undefined` (`none` in the model) are omitted. -/
def optJField (k : String) (v : Option JVal) : List (String × JVal) :=
  match v with
  | some j => [(k, j)]
  | none => []

/-- Encoding of a stored post as the JSON object its serialization denotes. -/
def encodePost (p : Post) : JVal :=
  JVal.obj
    ([("id", JVal.str p.id), ("slug", JVal.str p.slug), ("title", JVal.str p.title),
      ("excerpt", JVal.str p.excerpt), ("readTime", JVal.num p.readTime),
      ("createdAt", JVal.num p.createdAt), ("updatedAt", JVal.num p.updatedAt)]
      ++ optJField "content" (p.content.map JVal.str)
      ++ optJField "category" (p.category.map JVal.str)
      ++ optJField "featuredImage" (p.featuredImage.map JVal.str)
      ++ optJField "published" (p.published.map JVal.bool)
      ++ optJField "author" (p.author.map JVal.str))

/-- String extraction from a JSON value. -/
def asStr : JVal → Option String
  | JVal.str s => some s
  | _ => none

/-- Number extraction from a JSON value. -/
def asNat : JVal → Option Nat
  | JVal.num n => some n
  | _ => none

/-- Boolean extraction from a JSON value. -/
def asBool : JVal → Option Bool
  | JVal.bool b => some b
  | _ => none

/-- Reading a JSON object back as a typed `Post`; `none` when a field the
model types as always-present is missing or of the wrong shape. -/
def decodePost (j : JVal) : Option Post :=
  match j with
  | JVal.obj fs =>
    match (getField "id" fs).bind asStr, (getField "slug" fs).bind asStr,
        (getField "title" fs).bind asStr, (getField "excerpt" fs).bind asStr,
        (getField "readTime" fs).bind asNat, (getField "createdAt" fs).bind asNat,
        (getField "updatedAt" fs).bind asNat with
    | some id, some slug, some title, some excerpt, some readTime,
        some createdAt, some updatedAt =>
      some
        { id := id, slug := slug, title := title, excerpt := excerpt
          readTime := readTime, createdAt := createdAt, updatedAt := updatedAt
          content := (getField "content" fs).bind asStr
          category := (getField "category" fs).bind asStr
          featuredImage := (getField "featuredImage" fs).bind asStr
          published := (getField "published" fs).bind asBool
          author := (getField "author" fs).bind asStr }
    | _, _, _, _, _, _, _ => none
  | _ => none

/-- Element-wise decoding of an exported posts array. -/
def decodePosts : List JVal → Option (List Post)
  | [] => some []
  | j :: js =>
    match decodePost j, decodePosts js with
    | some p, some ps => some (p :: ps)
    | _, _ => none

/-- Model of `BlogStorage.exportToJSON` (blog-storage.js lines 247-250): the
document `{ posts: [...] }` holding the stored collection. -/
def exportToJSON (posts : List Post) : JVal :=
  JVal.obj [("posts", JVal.arr (posts.map encodePost))]

/-- Model of `BlogStorage.importFromJSON` (blog-storage.js lines 257-268) on
an input that parsed to the JSON value `j`.  The source computes
`data.posts || []`, persists that value via `savePosts` (replacing the whole
collection) and returns its `.length`.  Member access on parsed `null`
throws, is caught, and is re-thrown as the format error — the outer `none`.
Otherwise the call returns the `.length` of the persisted value (undefined —
inner `none` — when that value has no length) paired with the persisted
value itself. -/
def importFromJSON (j : JVal) : Option (Option Nat × JVal) :=
  match j with
  | JVal.null => none
  | JVal.obj fs =>
    let posts :=
      match getField "posts" fs with
      | some v => if jsTruthy v then v else JVal.arr []
      | none => JVal.arr []
    some (jsLength posts, posts)
  | _ => some (some 0, JVal.arr [])

/-- Absence of two adjacent characters satisfying `p`; used to state that
the slug pipeline's output contains no repeated hyphens. -/
def noPP (p : Char → Bool) : List Char → Prop
  | a :: b :: cs => ¬(p a = true ∧ p b = true) ∧ noPP p (b :: cs)
  | _ => True

/-! ### Concrete inputs used by witnesses and counterexamples -/

/-- A concrete stand-in for the SHA-256 hex digest function (the digest value
itself is irrelevant to the control flow under verification). -/
def hashW (s : String) : String := "digest-" ++ s

/-- A stored post whose id collides with the id `savePost` synthesizes for a
new post titled "hello" at timestamp 0. -/
def c1post : Post :=
  { id := "hello-1970-01-01", slug := "hello", title := "hello", content := none
    excerpt := "", category := none, featuredImage := none, published := none
    author := none, readTime := 1, createdAt := 0, updatedAt := 0 }

/-- A partial record creating a second post titled "hello". -/
def c1data : PostData := { title := some "hello" }

/-- An existing post with slug "old". -/
def c2post : Post :=
  { id := "old-post", slug := "old", title := "Old", content := none
    excerpt := "", category := none, featuredImage := none, published := none
    author := none, readTime := 1, createdAt := 0, updatedAt := 0 }

/-- A title-only edit of `c2post` that supplies no slug. -/
def c2data : PostData := { id := some "old-post", title := some "New Title" }

/-- The post used by the double-save scenario. -/
def c4post : Post :=
  { id := "w", slug := "w", title := "T", content := none
    excerpt := "", category := none, featuredImage := none, published := none
    author := none, readTime := 1, createdAt := 5, updatedAt := 5 }

/-- Result of the first title-only save of `c4post` at time 10. -/
def c4q1 : Post := mergePost c4post { id := some "w", title := some "A" } 10

/-- Result of the second title-only save at time 20. -/
def c4q2 : Post := mergePost c4q1 { id := some "w", title := some "B" } 20

/-! ### C7: the slug scenario -/

/-- C7: `generateSlug` — lowercase, trim, strip characters outside word,
space and hyphen, collapse whitespace runs to single hyphens, collapse
repeated hyphens, truncate to 60 characters — maps the title
"Hello, World! 2024" to the slug "hello-world-2024". -/
theorem generateSlug_hello_world : generateSlug "Hello, World! 2024" = "hello-world-2024" := by
  decide

/-! ### C5: expired sessions -/

/-- C5: whenever the session lookup (tab scope first, durable scope second)
finds a session and the current time is strictly past its `expiresAt`,
`isAuthenticated` returns false and clears the session record from both
storage scopes; moreover `isAuthenticated` never reports true strictly past
the expiry of the session it found. -/
theorem isAuthenticated_expired :
    (∀ now st s, getSessionOpt st = some s → s.expiresAt < now →
      isAuthenticated now st = (false, logout st) ∧
        (logout st).tabSession = none ∧ (logout st).localSession = none) ∧
    (∀ now st, (isAuthenticated now st).1 = true →
      ∃ s, getSessionOpt st = some s ∧ now ≤ s.expiresAt) := by
  constructor
  · intro now st s h hexp
    refine ⟨?_, rfl, rfl⟩
    simp [isAuthenticated, h, hexp]
  · intro now st h
    unfold isAuthenticated at h
    cases hs : getSessionOpt st with
    | none => rw [hs] at h; simp at h
    | some s =>
      rw [hs] at h
      by_cases hexp : s.expiresAt < now
      · simp [hexp] at h
      · exact ⟨s, rfl, Nat.not_lt.mp hexp⟩

/-- Witness for C5: a session created by `createSession false` at time 0
expires at 86400000; checking authentication at 86401000 (24h plus one
second later) reports false and clears both scopes. -/
theorem isAuthenticated_expired_witness :
    isAuthenticated 86401000 (createSession false 0 authEmpty) =
      (false, logout (createSession false 0 authEmpty)) ∧
    (logout (createSession false 0 authEmpty)).tabSession = none ∧
    (logout (createSession false 0 authEmpty)).localSession = none :=
  isAuthenticated_expired.1 86401000 (createSession false 0 authEmpty)
    { authenticated := true, timestamp := 0, expiresAt := 86400000 }
    rfl (by decide)

/-! ### C9: extendSession resets the expiry to now + 24h -/

/-- C9: whenever a session record exists in either scope, `extendSession`
rewrites the found session with `expiresAt = now + SESSION_DURATION` (24
hours), regardless of the duration it was created with; in particular, on a
durable remember-me session whose remaining lifetime exceeds 24 hours the
call strictly decreases `expiresAt`. -/
theorem extendSession_resets_expiry :
    (∀ now st s, getSessionOpt st = some s →
      getSessionOpt (extendSession now st) =
        some { s with expiresAt := now + SESSION_DURATION }) ∧
    (∀ now st s, st.tabSession = none → st.localSession = some s →
      now + SESSION_DURATION < s.expiresAt →
      (extendSession now st).localSession =
        some { s with expiresAt := now + SESSION_DURATION } ∧
      ({ s with expiresAt := now + SESSION_DURATION } : Session).expiresAt < s.expiresAt) := by
  constructor
  · intro now st s h
    cases hts : st.tabSession with
    | some t =>
      have hst : s = t := by simp [getSessionOpt, hts] at h; exact h.symm
      subst hst
      simp [extendSession, getSessionOpt, hts]
    | none =>
      have hls : st.localSession = some s := by simpa [getSessionOpt, hts] using h
      simp [extendSession, getSessionOpt, hts, hls]
  · intro now st s hts hls hrem
    refine ⟨?_, hrem⟩
    simp [extendSession, getSessionOpt, hts, hls]

/-- Witness for C9: a remember-me session created at time 0 expires at
2592000000 (30 days); extending it at time 1000 rewrites the expiry to
86401000, which is strictly earlier. -/
theorem extendSession_resets_expiry_witness :
    (extendSession 1000 (createSession true 0 authEmpty)).localSession =
      some { authenticated := true, timestamp := 0, expiresAt := 86401000 } ∧
    ({ authenticated := true, timestamp := 0, expiresAt := 86401000 } : Session).expiresAt <
      2592000000 := by
  have h := extendSession_resets_expiry.2 1000 (createSession true 0 authEmpty)
    { authenticated := true, timestamp := 0, expiresAt := 2592000000 }
    rfl rfl (by decide)
  exact h

/-! ### C3: the first-time login flow -/

/-- Counterexample to C3 as stated: the claim quantifies over every password,
but on a store with no credential `login "abc"` (a password shorter than 6
characters) fails first-time setup and returns success = false rather than
success and firstTime true. -/
theorem login_short_password_counterexample :
    (login hashW "abc" false 0 authEmpty).1.success = false ∧
    (login hashW "abc" false 0 authEmpty).1.firstTime = none := by
  constructor <;> rfl

/-- C3 amended: for every password of length at least 6 (the validation
threshold of `setPassword`), `login pw` on a store with no credential
performs first-time setup — it succeeds with firstTime = true, persists the
digest, and creates a session — and a subsequent `login pw` on the resulting
store succeeds with firstTime = false. -/
theorem login_firstTime_flow (hash : String → String) (pw : String) (rm1 rm2 : Bool)
    (t1 t2 : Nat) (st : AuthState) (hlen : 6 ≤ pw.length) (hcred : st.password = none) :
    (login hash pw rm1 t1 st).1.success = true ∧
    (login hash pw rm1 t1 st).1.firstTime = some true ∧
    (login hash pw rm1 t1 st).2.password = some (hash pw) ∧
    getSessionOpt (login hash pw rm1 t1 st).2 ≠ none ∧
    (login hash pw rm2 t2 (login hash pw rm1 t1 st).2).1.success = true ∧
    (login hash pw rm2 t2 (login hash pw rm1 t1 st).2).1.firstTime = some false := by
  have hnl : ¬ pw.length < 6 := by omega
  cases rm1 <;> cases rm2 <;> cases htab : st.tabSession <;>
    simp [login, isPasswordSet, setPassword, verifyPassword, createSession,
      getSessionOpt, hcred, hnl, htab]

/-- Witness for C3: the concrete flow with password "secret" on the empty
store, first at time 0 and again at time 1. -/
theorem login_firstTime_flow_witness :
    (login hashW "secret" false 0 authEmpty).1.success = true ∧
    (login hashW "secret" false 0 authEmpty).1.firstTime = some true ∧
    (login hashW "secret" false 0 authEmpty).2.password = some (hashW "secret") ∧
    getSessionOpt (login hashW "secret" false 0 authEmpty).2 ≠ none ∧
    (login hashW "secret" false 1 (login hashW "secret" false 0 authEmpty).2).1.success = true ∧
    (login hashW "secret" false 1
      (login hashW "secret" false 0 authEmpty).2).1.firstTime = some false :=
  login_firstTime_flow hashW "secret" false false 0 1 authEmpty (by decide) rfl

/-! ### C10: import of a document without a posts array -/

/-- Counterexample to C10 as stated: the input parses as JSON and has no
posts array (its posts field is the number 5), yet `importFromJSON` does not
replace the collection with an empty list and does not return 0 — the truthy
number is persisted as-is and the returned `.length` of a number is
undefined. -/
theorem importFromJSON_nonarray_counterexample :
    importFromJSON (JVal.obj [("posts", JVal.num 5)]) = some (none, JVal.num 5) ∧
    (some ((none : Option Nat), JVal.num 5) ≠
      some (some 0, JVal.arr ([] : List JVal))) := by
  refine ⟨rfl, ?_⟩
  intro h
  injection h with h2
  injection h2 with h3 h4
  exact Option.noConfusion h3

/-- C10 amended: for every input that parses to a JSON object with no
`posts` key at all (for example "\x7b\x7d"), `importFromJSON` signals no
error, replaces the entire stored collection with the empty array, and
returns 0. -/
theorem importFromJSON_missing_posts (fs : List (String × JVal))
    (h : getField "posts" fs = none) :
    importFromJSON (JVal.obj fs) = some (some 0, JVal.arr []) := by
  simp [importFromJSON, h, jsLength]

/-- Witness for C10: the empty object, i.e. the parse of "\x7b\x7d". -/
theorem importFromJSON_missing_posts_witness :
    importFromJSON (JVal.obj []) = some (some 0, JVal.arr []) :=
  importFromJSON_missing_posts [] rfl

/-! ### Lemmas about the update branch of savePost -/

/-- A successful update replaces the first matching post by its merge and
leaves every id in place. -/
theorem updateFirst_map_id (d : PostData) (now : Nat) :
    ∀ posts q posts2, updateFirst d now posts = some (q, posts2) →
      posts2.map Post.id = posts.map Post.id := by
  intro posts
  induction posts with
  | nil => intro q posts2 h; simp [updateFirst] at h
  | cons p ps ih =>
    intro q posts2 h
    unfold updateFirst at h
    by_cases hid : (d.id == some p.id) = true
    · rw [if_pos hid] at h
      injection h with h1
      have h2 := congrArg Prod.snd h1
      simp at h2
      subst h2
      have hide : d.id = some p.id := eq_of_beq hid
      simp [mergePost, hide]
    · rw [if_neg hid] at h
      cases huf : updateFirst d now ps with
      | none => rw [huf] at h; exact absurd h (by simp)
      | some r =>
        obtain ⟨q0, ps2⟩ := r
        rw [huf] at h
        injection h with h1
        have hq : q0 = q := congrArg Prod.fst h1
        have hps : p :: ps2 = posts2 := congrArg Prod.snd h1
        subst hps
        simp [ih q0 ps2 huf]

/-- A successful update returns the merge of some member the partial record's
id matched. -/
theorem updateFirst_mem (d : PostData) (now : Nat) :
    ∀ posts q posts2, updateFirst d now posts = some (q, posts2) →
      ∃ p, p ∈ posts ∧ d.id = some p.id ∧ q = mergePost p d now := by
  intro posts
  induction posts with
  | nil => intro q posts2 h; simp [updateFirst] at h
  | cons p ps ih =>
    intro q posts2 h
    unfold updateFirst at h
    by_cases hid : (d.id == some p.id) = true
    · rw [if_pos hid] at h
      injection h with h1
      have hq : mergePost p d now = q := congrArg Prod.fst h1
      exact ⟨p, List.mem_cons_self p ps, eq_of_beq hid, hq.symm⟩
    · rw [if_neg hid] at h
      cases huf : updateFirst d now ps with
      | none => rw [huf] at h; exact absurd h (by simp)
      | some r =>
        obtain ⟨q0, ps2⟩ := r
        rw [huf] at h
        injection h with h1
        have hq : q0 = q := congrArg Prod.fst h1
        obtain ⟨p0, hmem, hide, hmp⟩ := ih q0 ps2 huf
        exact ⟨p0, List.mem_cons_of_mem p hmem, hide, hq ▸ hmp⟩

/-- When some member's id matches the partial record, the update branch is
taken. -/
theorem updateFirst_isSome_of_mem (d : PostData) (now : Nat) :
    ∀ posts p, p ∈ posts → d.id = some p.id →
      (updateFirst d now posts).isSome := by
  intro posts
  induction posts with
  | nil => intro p h; simp at h
  | cons q ps ih =>
    intro p hmem hid
    unfold updateFirst
    by_cases hq : (d.id == some q.id) = true
    · simp [hq]
    · rw [if_neg hq]
      rcases List.mem_cons.mp hmem with hpq | hps
      · subst hpq
        exact absurd (beq_iff_eq.mpr hid) hq
      · have := ih p hps hid
        cases huf : updateFirst d now ps with
        | none => rw [huf] at this; simp at this
        | some r => simp

/-- Saving again with a partial record carrying the same id updates the
previously merged post once more: the first match sits at the same position
because the merge preserved its id. -/
theorem updateFirst_chain (d d2 : PostData) (t t2 : Nat) (hid : d2.id = d.id) :
    ∀ posts q posts2, updateFirst d t posts = some (q, posts2) →
      ∃ posts3, updateFirst d2 t2 posts2 = some (mergePost q d2 t2, posts3) := by
  intro posts
  induction posts with
  | nil => intro q posts2 h; simp [updateFirst] at h
  | cons p ps ih =>
    intro q posts2 h
    unfold updateFirst at h
    by_cases hb : (d.id == some p.id) = true
    · rw [if_pos hb] at h
      injection h with h1
      have hq : mergePost p d t = q := congrArg Prod.fst h1
      have hps : mergePost p d t :: ps = posts2 := congrArg Prod.snd h1
      have hide : d.id = some p.id := eq_of_beq hb
      have hqid : q.id = p.id := by
        rw [← hq]; simp [mergePost, hide]
      refine ⟨mergePost q d2 t2 :: ps, ?_⟩
      rw [← hps]
      unfold updateFirst
      have hb2 : (d2.id == some (mergePost p d t).id) = true := by
        rw [hq, hqid, hid, hide]; simp
      rw [if_pos hb2, hq]
    · rw [if_neg hb] at h
      cases huf : updateFirst d t ps with
      | none => rw [huf] at h; exact absurd h (by simp)
      | some r =>
        obtain ⟨q0, ps2⟩ := r
        rw [huf] at h
        injection h with h1
        have hq : q0 = q := congrArg Prod.fst h1
        have hps : p :: ps2 = posts2 := congrArg Prod.snd h1
        subst hq
        obtain ⟨posts3, h3⟩ := ih q0 ps2 huf
        refine ⟨p :: posts3, ?_⟩
        rw [← hps]
        unfold updateFirst
        have hb2 : ¬ (d2.id == some p.id) = true := by rw [hid]; exact hb
        rw [if_neg hb2, h3]

/-! ### C1: the id-uniqueness invariant -/

/-- Counterexample to C1 as stated: starting from a collection that
satisfies the uniqueness invariant and already contains a post with id
"hello-1970-01-01", saving a new post titled "hello" at timestamp 0
synthesizes the very same id (slug of the title plus ISO date) without any
freshness check, so `savePost` produces a collection with a duplicated id. -/
theorem savePost_duplicate_id_counterexample :
    idsNodup [c1post] ∧
    ¬ idsNodup ((savePost c1data 0 [c1post]).elim [] Prod.snd) := by
  constructor
  · decide
  · decide

/-- C1 amended: `savePost` preserves the id-uniqueness invariant provided
that, when it takes the create branch, the synthesized id
`generateId title now` does not already occur in the collection; the update
branch preserves uniqueness unconditionally since it leaves every id in
place. -/
theorem savePost_preserves_idsNodup (d : PostData) (now : Nat)
    (posts posts2 : List Post) (q : Post)
    (hnd : idsNodup posts)
    (hsave : savePost d now posts = some (q, posts2))
    (hfresh : ∀ t, d.title = some t → updateFirst d now posts = none →
      generateId t now ∉ posts.map Post.id) :
    idsNodup posts2 := by
  unfold savePost at hsave
  cases huf : updateFirst d now posts with
  | some r =>
    obtain ⟨q0, ps0⟩ := r
    rw [huf] at hsave
    injection hsave with h1
    have hps : ps0 = posts2 := congrArg Prod.snd h1
    subst hps
    have := updateFirst_map_id d now posts q0 ps0 huf
    unfold idsNodup
    rw [this]
    exact hnd
  | none =>
    rw [huf] at hsave
    cases ht : d.title with
    | none => rw [ht] at hsave; exact absurd hsave (by simp)
    | some t =>
      rw [ht] at hsave
      injection hsave with h1
      have hps : posts ++ [newPost d t now] = posts2 := congrArg Prod.snd h1
      rw [← hps]
      unfold idsNodup
      rw [List.map_append]
      have hidnew : (newPost d t now).id = generateId t now := rfl
      rw [List.nodup_append]
      refine ⟨hnd, by simp, ?_⟩
      intro a ha hb
      simp [hidnew] at hb
      subst hb
      exact hfresh t ht huf ha

/-- Witness for C1 amended: creating a post in the empty collection, where
the synthesized id is trivially fresh, yields a collection with distinct
ids. -/
theorem savePost_preserves_idsNodup_witness :
    idsNodup [newPost { title := some "hi" } "hi" 0] :=
  savePost_preserves_idsNodup { title := some "hi" } 0 []
    [newPost { title := some "hi" } "hi" 0] (newPost { title := some "hi" } "hi" 0)
    (by decide) rfl (by intro t ht huf; simp)

/-! ### C2: the slug on title edits -/

/-- Counterexample to C2 as stated: saving an existing post with a matching
id, a different title and no explicit slug leaves the stored slug unchanged
("old"), which differs from `generateSlug` of the new title ("new-title") —
the update branch never recomputes the slug. -/
theorem savePost_slug_not_recomputed_counterexample :
    ((savePost c2data 5 [c2post]).elim c2post Prod.fst).slug = "old" ∧
    generateSlug "New Title" = "new-title" ∧
    ("old" : String) ≠ "new-title" := by
  refine ⟨by decide, by decide, by decide⟩

/-- C2 amended: when `savePost` updates an existing post and the partial
record supplies no slug, the stored slug afterwards equals the matched
post's previous slug — the slug is carried over, not recomputed from the new
title. -/
theorem savePost_update_keeps_slug (d : PostData) (now : Nat)
    (posts posts2 : List Post) (q : Post)
    (hslug : d.slug = none)
    (hmem : ∃ p, p ∈ posts ∧ d.id = some p.id)
    (hsave : savePost d now posts = some (q, posts2)) :
    ∃ p, p ∈ posts ∧ d.id = some p.id ∧ q.slug = p.slug := by
  obtain ⟨p0, hp0, hid0⟩ := hmem
  have hsome := updateFirst_isSome_of_mem d now posts p0 hp0 hid0
  unfold savePost at hsave
  cases huf : updateFirst d now posts with
  | none => rw [huf] at hsome; simp at hsome
  | some r =>
    obtain ⟨q0, ps0⟩ := r
    rw [huf] at hsave
    injection hsave with h1
    have hq : q0 = q := congrArg Prod.fst h1
    subst hq
    obtain ⟨p, hmem2, hid, hmp⟩ := updateFirst_mem d now posts q0 ps0 huf
    refine ⟨p, hmem2, hid, ?_⟩
    rw [hmp]
    simp [mergePost, hslug]

/-- Witness for C2 amended: the concrete title-only edit of `c2post` keeps
the stored slug "old". -/
theorem savePost_update_keeps_slug_witness :
    (mergePost c2post c2data 5).slug = c2post.slug := by
  obtain ⟨p, hp, -, hs⟩ :=
    savePost_update_keeps_slug c2data 5 [c2post] [mergePost c2post c2data 5]
      (mergePost c2post c2data 5) rfl ⟨c2post, List.mem_singleton_self c2post, rfl⟩ rfl
  rw [List.mem_singleton] at hp
  rw [hs, hp]

/-! ### C4: the double title-only save -/

/-- C4: for a post already in the collection (some member has id `i`),
saving twice in succession with partial records carrying only that id and a
title, at strictly increasing times, makes `updatedAt` strictly increase
between the two saves while `id` and `createdAt` are left unchanged by both
saves (they agree with the original post's). -/
theorem savePost_double_edit (i t1 t2 : String) (time1 time2 : Nat)
    (posts posts1 posts2 : List Post) (q1 q2 : Post)
    (htime : time1 < time2)
    (hmem : ∃ p, p ∈ posts ∧ p.id = i)
    (h1 : savePost { id := some i, title := some t1 } time1 posts = some (q1, posts1))
    (h2 : savePost { id := some i, title := some t2 } time2 posts1 = some (q2, posts2)) :
    q1.updatedAt = time1 ∧ q2.updatedAt = time2 ∧ q1.updatedAt < q2.updatedAt ∧
    q2.id = q1.id ∧ q2.createdAt = q1.createdAt ∧
    ∃ p, p ∈ posts ∧ q1.id = p.id ∧ q1.createdAt = p.createdAt := by
  obtain ⟨p0, hp0, hp0id⟩ := hmem
  have hsome := updateFirst_isSome_of_mem { id := some i, title := some t1 } time1 posts
    p0 hp0 (by rw [hp0id])
  unfold savePost at h1
  cases huf1 : updateFirst { id := some i, title := some t1 } time1 posts with
  | none => rw [huf1] at hsome; simp at hsome
  | some r =>
    obtain ⟨qa, psa⟩ := r
    rw [huf1] at h1
    injection h1 with h1e
    have hqa : q1 = qa := (congrArg Prod.fst h1e).symm
    have hpsa : posts1 = psa := (congrArg Prod.snd h1e).symm
    subst hqa; subst hpsa
    obtain ⟨p, hpmem, hpid, hpq⟩ :=
      updateFirst_mem { id := some i, title := some t1 } time1 posts q1 posts1 huf1
    have hq1upd : q1.updatedAt = time1 := by rw [hpq]; rfl
    have hpid2 : i = p.id := Option.some.inj hpid
    have hq1id : q1.id = p.id := by
      rw [hpq]; simpa [mergePost] using hpid2
    have hq1created : q1.createdAt = p.createdAt := by rw [hpq]; rfl
    obtain ⟨posts3, hchain⟩ :=
      updateFirst_chain { id := some i, title := some t1 }
        { id := some i, title := some t2 } time1 time2 rfl posts q1 posts1 huf1
    unfold savePost at h2
    rw [hchain] at h2
    injection h2 with h2e
    have hq2 : mergePost q1 { id := some i, title := some t2 } time2 = q2 :=
      congrArg Prod.fst h2e
    have hq2upd : q2.updatedAt = time2 := by rw [← hq2]; rfl
    have hq2id : q2.id = q1.id := by
      rw [← hq2]
      simp [mergePost]
      rw [hq1id]
      exact hpid2
    have hq2created : q2.createdAt = q1.createdAt := by rw [← hq2]; rfl
    refine ⟨hq1upd, hq2upd, ?_, hq2id, hq2created, p, hpmem, hq1id, hq1created⟩
    rw [hq1upd, hq2upd]
    exact htime

/-- Witness for C4: the post `c4post` (createdAt 5) saved with title "A" at
time 10 and title "B" at time 20. -/
theorem savePost_double_edit_witness :
    c4q1.updatedAt = 10 ∧ c4q2.updatedAt = 20 ∧ c4q1.updatedAt < c4q2.updatedAt ∧
    c4q2.id = c4q1.id ∧ c4q2.createdAt = c4q1.createdAt ∧
    c4q1.id = c4post.id ∧ c4q1.createdAt = c4post.createdAt := by
  obtain ⟨ha, hb, hc, hd, he, p, hp, hf, hg⟩ :=
    savePost_double_edit "w" "A" "B" 10 20 [c4post] [c4q1] [c4q2] c4q1 c4q2
      (by decide) ⟨c4post, List.mem_singleton_self c4post, rfl⟩ rfl rfl
  rw [List.mem_singleton] at hp
  subst hp
  exact ⟨ha, hb, hc, hd, he, hf, hg⟩

/-! ### C6: the export/import round trip -/

/-- Decoding inverts encoding on every post, whichever optional fields are
present. -/
theorem decodePost_encodePost (p : Post) : decodePost (encodePost p) = some p := by
  obtain ⟨i, sl, ti, co, ex, ca, fi, pu, au, rt, cr, up⟩ := p
  cases co <;> cases ca <;> cases fi <;> cases pu <;> cases au <;> rfl

/-- Element-wise decoding inverts element-wise encoding. -/
theorem decodePosts_map_encode (posts : List Post) :
    decodePosts (posts.map encodePost) = some posts := by
  induction posts with
  | nil => rfl
  | cons p ps ih => simp [decodePosts, decodePost_encodePost, ih]

/-- C6: importing the export of any stored collection signals no error,
persists exactly the exported posts array — which decodes back to the very
same typed collection, same ids and same values for every field of every
post — and reports the original number of posts. -/
theorem import_export_roundtrip (posts : List Post) :
    importFromJSON (exportToJSON posts) =
      some (some posts.length, JVal.arr (posts.map encodePost)) ∧
    decodePosts (posts.map encodePost) = some posts := by
  constructor
  · simp [importFromJSON, exportToJSON, getField, jsTruthy, jsLength]
  · exact decodePosts_map_encode posts

/-! ### C8: idempotence of generateSlug -/

theorem char_ofNat_toNat_lower : ∀ n, n < 123 → 97 ≤ n → (Char.ofNat n).toNat = n := by
  decide

theorem toLower_toLower (c : Char) : Char.toLower (Char.toLower c) = Char.toLower c := by
  simp only [Char.toLower]
  by_cases h : c.toNat ≥ 65 ∧ c.toNat ≤ 90
  · rw [if_pos h]
    have h2 : (Char.ofNat (c.toNat + 32)).toNat = c.toNat + 32 :=
      char_ofNat_toNat_lower _ (by omega) (by omega)
    rw [if_neg]
    rw [h2]
    omega
  · rw [if_neg h, if_neg h]

theorem noPP_tail (p : Char → Bool) (c : Char) (cs : List Char)
    (h : noPP p (c :: cs)) : noPP p cs := by
  cases cs with
  | nil => trivial
  | cons d ds => exact h.2

theorem noPP_cons_of_not (p : Char → Bool) (x : Char) (l : List Char)
    (hx : p x = false) (hl : noPP p l) : noPP p (x :: l) := by
  cases l with
  | nil => trivial
  | cons d ds => exact ⟨fun h2 => by rw [hx] at h2; exact Bool.noConfusion h2.1, hl⟩

theorem noPP_cons_head (p : Char → Bool) (x : Char) (l : List Char)
    (hhead : ∀ d ds, l = d :: ds → p d = false) (hl : noPP p l) : noPP p (x :: l) := by
  cases l with
  | nil => trivial
  | cons d ds =>
    refine ⟨fun h2 => ?_, hl⟩
    rw [hhead d ds rfl] at h2
    exact Bool.noConfusion h2.2

theorem mem_collapseRuns (p : Char → Bool) (r : Char) :
    ∀ l b c, c ∈ collapseRuns p r b l → c = r ∨ c ∈ l := by
  intro l
  induction l with
  | nil => intro b c h; simp [collapseRuns] at h
  | cons x xs ih =>
    intro b c h
    unfold collapseRuns at h
    by_cases hx : p x = true
    · rw [if_pos hx] at h
      cases b with
      | true =>
        rcases ih true c h with h1 | h2
        · exact Or.inl h1
        · exact Or.inr (List.mem_cons_of_mem x h2)
      | false =>
        rcases List.mem_cons.mp h with h1 | h2
        · exact Or.inl h1
        · rcases ih true c h2 with h3 | h4
          · exact Or.inl h3
          · exact Or.inr (List.mem_cons_of_mem x h4)
    · rw [if_neg hx] at h
      rcases List.mem_cons.mp h with h1 | h2
      · exact Or.inr (h1 ▸ List.mem_cons_self x xs)
      · rcases ih false c h2 with h3 | h4
        · exact Or.inl h3
        · exact Or.inr (List.mem_cons_of_mem x h4)

theorem collapseRuns_not_p (p : Char → Bool) (r : Char) (hr : p r = false) :
    ∀ l b c, c ∈ collapseRuns p r b l → p c = false := by
  intro l
  induction l with
  | nil => intro b c h; simp [collapseRuns] at h
  | cons x xs ih =>
    intro b c h
    unfold collapseRuns at h
    by_cases hx : p x = true
    · rw [if_pos hx] at h
      cases b with
      | true => exact ih true c h
      | false =>
        rcases List.mem_cons.mp h with h1 | h2
        · rw [h1]; exact hr
        · exact ih true c h2
    · rw [if_neg hx] at h
      rcases List.mem_cons.mp h with h1 | h2
      · rw [h1]; exact Bool.eq_false_iff.mpr (fun hc => hx hc)
      · exact ih false c h2

theorem collapseRuns_head_not_p (p : Char → Bool) (r : Char) :
    ∀ l c cs, collapseRuns p r true l = c :: cs → p c = false := by
  intro l
  induction l with
  | nil => intro c cs h; simp [collapseRuns] at h
  | cons x xs ih =>
    intro c cs h
    unfold collapseRuns at h
    by_cases hx : p x = true
    · rw [if_pos hx] at h
      exact ih c cs h
    · rw [if_neg hx] at h
      injection h with h1 h2
      rw [← h1]
      exact Bool.eq_false_iff.mpr (fun hc => hx hc)

theorem collapseRuns_noPP (p : Char → Bool) (r : Char) :
    ∀ l b, noPP p (collapseRuns p r b l) := by
  intro l
  induction l with
  | nil => intro b; simp [collapseRuns]; trivial
  | cons x xs ih =>
    intro b
    unfold collapseRuns
    by_cases hx : p x = true
    · rw [if_pos hx]
      cases b with
      | true => exact ih true
      | false =>
        refine noPP_cons_head p r (collapseRuns p r true xs) ?_ (ih true)
        intro d ds hd
        exact collapseRuns_head_not_p p r xs d ds hd
    · rw [if_neg hx]
      exact noPP_cons_of_not p x _ (Bool.eq_false_iff.mpr (fun hc => hx hc)) (ih false)

theorem collapseRuns_id_clean (p : Char → Bool) (r : Char) :
    ∀ l, (∀ c ∈ l, p c = false) → collapseRuns p r false l = l := by
  intro l
  induction l with
  | nil => intro h; rfl
  | cons x xs ih =>
    intro h
    unfold collapseRuns
    rw [if_neg (by rw [h x (List.mem_cons_self x xs)]; simp)]
    rw [ih (fun c hc => h c (List.mem_cons_of_mem x hc))]

theorem collapseRuns_id_noPP (p : Char → Bool) (r : Char) (hbr : ∀ c, p c = true → c = r) :
    ∀ l, noPP p l →
      collapseRuns p r false l = l ∧
      ((∀ d ds, l = d :: ds → p d = false) → collapseRuns p r true l = l) := by
  intro l
  induction l with
  | nil => intro h; exact ⟨rfl, fun _ => rfl⟩
  | cons x xs ih =>
    intro h
    have hxs : noPP p xs := noPP_tail p x xs h
    obtain ⟨ihf, iht⟩ := ih hxs
    constructor
    · unfold collapseRuns
      by_cases hx : p x = true
      · have hxr : x = r := hbr x hx
        subst hxr
        have hhead : ∀ d ds, xs = d :: ds → p d = false := by
          intro d ds hd
          subst hd
          by_cases hdp : p d = true
          · exact absurd ⟨hx, hdp⟩ h.1
          · exact Bool.eq_false_iff.mpr (fun hc => hdp hc)
        simp [hx, iht hhead]
      · rw [if_neg hx, ihf]
    · intro hhead
      unfold collapseRuns
      have hx : ¬ p x = true := by
        rw [hhead x xs rfl]; simp
      rw [if_neg hx, ihf]

theorem noPP_take (p : Char → Bool) :
    ∀ l n, noPP p l → noPP p (l.take n) := by
  intro l
  induction l with
  | nil => intro n h; simp [List.take_nil]; trivial
  | cons c cs ih =>
    intro n h
    cases n with
    | zero => trivial
    | succ m =>
      rw [List.take_succ_cons]
      have ht : noPP p (cs.take m) := ih m (noPP_tail p c cs h)
      cases cs with
      | nil => simp [List.take_nil]; trivial
      | cons d ds =>
        cases m with
        | zero => trivial
        | succ k =>
          rw [List.take_succ_cons] at ht ⊢
          exact ⟨h.1, ht⟩

theorem mem_of_mem_dropWhile (p : Char → Bool) :
    ∀ (l : List Char) (c : Char), c ∈ l.dropWhile p → c ∈ l := by
  intro l
  induction l with
  | nil => intro c h; simp at h
  | cons x xs ih =>
    intro c h
    rw [List.dropWhile_cons] at h
    by_cases hx : p x = true
    · simp only [hx, if_true] at h
      exact List.mem_cons_of_mem x (ih c h)
    · simp only [hx, if_false] at h
      exact h

theorem mem_of_mem_trimChars (l : List Char) (c : Char) (h : c ∈ trimChars l) : c ∈ l := by
  unfold trimChars at h
  rw [List.mem_reverse] at h
  have h2 := mem_of_mem_dropWhile _ _ c h
  rw [List.mem_reverse] at h2
  exact mem_of_mem_dropWhile _ _ c h2

theorem dropWhile_eq_self_of_all (p : Char → Bool) (l : List Char)
    (h : ∀ c ∈ l, p c = false) : l.dropWhile p = l := by
  cases l with
  | nil => rfl
  | cons c cs =>
    rw [List.dropWhile_cons]
    simp [h c (List.mem_cons_self c cs)]

theorem trimChars_eq_self (l : List Char)
    (h : ∀ c ∈ l, Char.isWhitespace c = false) : trimChars l = l := by
  unfold trimChars
  rw [dropWhile_eq_self_of_all _ l h]
  rw [dropWhile_eq_self_of_all _ l.reverse (fun c hc => h c (List.mem_reverse.mp hc))]
  exact List.reverse_reverse l

theorem map_eq_self_of_all (f : Char → Char) (l : List Char)
    (h : ∀ c ∈ l, f c = c) : l.map f = l := by
  induction l with
  | nil => rfl
  | cons c cs ih =>
    rw [List.map_cons, h c (List.mem_cons_self c cs),
      ih (fun d hd => h d (List.mem_cons_of_mem c hd))]

/-- Every character of the slug pipeline's output is fixed by lowercasing,
survives the keep-filter and is not whitespace. -/
theorem mem_slugChars (l : List Char) (c : Char) (hc : c ∈ slugChars l) :
    Char.toLower c = c ∧ slugKeep c = true ∧ Char.isWhitespace c = false := by
  unfold slugChars at hc
  have hcC := List.take_subset 60 _ hc
  have hB := mem_collapseRuns isHyph '-' _ false c hcC
  have hwsC : Char.isWhitespace c = false := by
    rcases hB with h1 | h2
    · rw [h1]; decide
    · have := collapseRuns_not_p isWs '-' (by decide) _ false c h2
      simpa [isWs] using this
  rcases hB with h1 | h2
  · rw [h1]
    refine ⟨by decide, by decide, by decide⟩
  · have hA := mem_collapseRuns isWs '-' _ false c h2
    rcases hA with h3 | h4
    · rw [h3]
      refine ⟨by decide, by decide, by decide⟩
    · have hkeep : slugKeep c = true := List.of_mem_filter h4
      have hmemtrim := List.mem_of_mem_filter h4
      have hmemmap : c ∈ (l.map Char.toLower) :=
        mem_of_mem_trimChars _ c hmemtrim
      obtain ⟨x, -, hfx⟩ := List.mem_map.mp hmemmap
      have hfix : Char.toLower c = c := by
        rw [← hfx]
        exact toLower_toLower x
      exact ⟨hfix, hkeep, hwsC⟩

theorem slugChars_noPP (l : List Char) : noPP isHyph (slugChars l) := by
  unfold slugChars
  exact noPP_take isHyph _ 60 (collapseRuns_noPP isHyph '-' _ false)

theorem slugChars_length_le (l : List Char) : (slugChars l).length ≤ 60 := by
  unfold slugChars
  rw [List.length_take]
  exact min_le_left _ _

theorem slugChars_idem (l : List Char) : slugChars (slugChars l) = slugChars l := by
  have hmem := mem_slugChars l
  set s := slugChars l with hs
  have h1 : s.map Char.toLower = s :=
    map_eq_self_of_all _ s (fun c hc => (hmem c hc).1)
  have h2 : trimChars s = s :=
    trimChars_eq_self s (fun c hc => (hmem c hc).2.2)
  have h3 : s.filter slugKeep = s :=
    List.filter_eq_self.mpr (fun c hc => (hmem c hc).2.1)
  have h4 : collapseRuns isWs '-' false s = s :=
    collapseRuns_id_clean isWs '-' s
      (fun c hc => by have := (hmem c hc).2.2; simpa [isWs] using this)
  have h5 : collapseRuns isHyph '-' false s = s :=
    (collapseRuns_id_noPP isHyph '-' (fun c hc => by simpa [isHyph] using hc) s
      (slugChars_noPP l)).1
  have h6 : s.take 60 = s := List.take_of_length_le (slugChars_length_le l)
  show slugChars s = s
  unfold slugChars
  rw [h1, h2, h3, h4, h5, h6]

/-- C8: `generateSlug` is idempotent — slugifying an already-slugified
string yields the same string, for every title. -/
theorem generateSlug_idempotent (t : String) :
    generateSlug (generateSlug t) = generateSlug t := by
  unfold generateSlug
  congr 1
  show slugChars (slugChars t.data) = slugChars t.data
  exact slugChars_idem t.data
